import Mathlib

/-!
Verification of `scripts/extract_affiliation_fields_sg.py`: a one-shot
pipeline that loads a JSON document, normalizes it into a list of records,
keeps the records with `country_filter == "SG"` and a non-null `base_mpd`,
projects four fields, and writes the result as JSON and/or CSV.

The embedding below models JSON values as an inductive type, Python
dictionaries as association lists (JSON parsing yields unique keys), and
per-record exceptions (`AttributeError` from calling `.get` on a non-dict)
with an explicit `Except` monad.  Numbers are modelled as integers;
Python's `str.strip`/`str.lower` are modelled by `pyStrip`/`pyLower`
(ASCII case and whitespace; the relevant inputs are ASCII).
-/

/-- A JSON value, as produced by `json.load`. -/
inductive JVal where
  | null
  | bool (b : Bool)
  | num (n : Int)
  | str (s : String)
  | arr (elems : List JVal)
  | obj (fields : List (String × JVal))

/-- Dictionary membership/indexing: the value stored under `k`, if present.
JSON-parsed dictionaries have unique keys, so first match suffices. -/
def lookupField (fields : List (String × JVal)) (k : String) : Option JVal :=
  match fields with
  | [] => none
  | (k', v) :: rest => if k' = k then some v else lookupField rest k

/-- Python `dict.get(k)`: the value stored under `k`, or `None` when the key
is absent. -/
def getField (fields : List (String × JVal)) (k : String) : JVal :=
  match fields with
  | [] => .null
  | (k', v) :: rest => if k' = k then v else getField rest k

/-- Lifting `obj.get(k)` to arbitrary values; `extract` only reaches this on
dictionaries (on anything else the attribute access raises first). -/
def JVal.get : JVal → String → JVal
  | .obj fields, k => getField fields k
  | _, _ => .null

/-- Python `str.strip()` whitespace (the ASCII part; the relevant inputs
are ASCII). -/
def pyIsSpace (c : Char) : Bool :=
  c == ' ' || c == '\t' || c == '\n' || c == '\r' || c == '\x0b' || c == '\x0c'

/-- Python `s.strip()`: drop whitespace from both ends. -/
def pyStrip (s : String) : String :=
  ⟨((s.data.dropWhile pyIsSpace).reverse.dropWhile pyIsSpace).reverse⟩

/-- Python `s.lower()` (ASCII case mapping; the relevant inputs are ASCII). -/
def pyLower (s : String) : String :=
  ⟨s.data.map Char.toLower⟩

/-- The source's `is_nonnull(value)`: `value is not None and not (isinstance(value, str)
and value.strip().lower() in ["", "null"])`. -/
def is_nonnull : JVal → Bool
  | .null => false
  | .str s => !(pyLower (pyStrip s) == "" || pyLower (pyStrip s) == "null")
  | _ => true

/-- Python `value == "SG"` for a JSON value: true exactly when `value` is
the string `"SG"` (no other JSON value compares equal to a `str`). -/
def eqSG : JVal → Bool
  | .str s => s == "SG"
  | _ => false

/-- The per-record exceptions that can escape the loop body of `extract`. -/
inductive PyError where
  | attributeError
deriving Repr, DecidableEq

/-- The dictionary literal built for a kept record: the four projected
fields, values fetched with `obj.get` (so a missing source field becomes
`None`). -/
def projectRecord (fields : List (String × JVal)) : JVal :=
  .obj [("base_mpd", getField fields "base_mpd"),
        ("merchantName", getField fields "merchantName"),
        ("merchant_slug", getField fields "merchant_slug"),
        ("trackingLink", getField fields "trackingLink")]

/-- One iteration of the `extract` loop body, before the `except` clause:
`ok none` when a `continue` filters the record out, `ok (some r)` when the
projection is appended, `error` when `obj.get` raises (`obj` not a dict). -/
def recordStep : JVal → Except PyError (Option JVal)
  | .obj fields =>
      if !(eqSG (getField fields "country_filter")) then .ok none
      else if !(is_nonnull (getField fields "base_mpd")) then .ok none
      else .ok (some (projectRecord fields))
  | _ => .error .attributeError

/-- The source's `extract(items)`: the loop with its `try ... except Exception: continue`
wrapper, which turns any per-record error into a skip. -/
def extract : List JVal → List JVal
  | [] => []
  | obj :: rest =>
      match recordStep obj with
      | .ok (some r) => r :: extract rest
      | .ok none => extract rest
      | .error _ => extract rest

/-- The `except Exception: continue` clause: every error is swallowed and
the record contributes nothing. -/
def tryRecord (step : Except PyError (Option JVal)) : Except PyError (Option JVal) :=
  match step with
  | .error _ => .ok none
  | .ok r? => .ok r?

/-- Variant of `extract` with exception propagation made explicit: the loop body runs
in `Except`, each record is wrapped by `tryRecord`, and an uncaught error
would abort the whole run with `.error`. -/
def extractRun : List JVal → Except PyError (List JVal)
  | [] => .ok []
  | obj :: rest => do
      let r? ← tryRecord (recordStep obj)
      let tail ← extractRun rest
      return (match r? with | some r => r :: tail | none => tail)

/-- The outcome of one record as seen in the output: `some` projection when
kept, `none` when filtered out or malformed. -/
def extractOne (v : JVal) : Option JVal :=
  match recordStep v with
  | .ok r? => r?
  | .error _ => none

/-- Test for `isinstance(v, list)`, returning the elements. -/
def asList : JVal → Option (List JVal)
  | .arr xs => some xs
  | _ => none

/-- The `for k in (...) ... break / else` search in `main`: first key that
is present and maps to a list wins. -/
def findListKey (fields : List (String × JVal)) : List String → Option (List JVal)
  | [] => none
  | k :: ks =>
      match (lookupField fields k).bind asList with
      | some l => some l
      | none => findListKey fields ks

def wrapperKeys : List String := ["data", "items", "merchants", "results"]

/-- The normalization in `main`: dict → unwrap via `wrapperKeys` or wrap as
a singleton; list → as is; anything else → `SystemExit` with a diagnostic
(modelled as `.error`, a non-zero process exit before any file is opened). -/
def data_list (data : JVal) : Except String (List JVal) :=
  match data with
  | .obj fields =>
      match findListKey fields wrapperKeys with
      | some l => .ok l
      | none => .ok [data]
  | .arr xs => .ok xs
  | _ => .error "Unsupported JSON structure in input file"

/-- The CSV column order fixed in `main`. -/
def fieldnames : List String := ["base_mpd", "merchantName", "merchant_slug", "trackingLink"]

mutual

/-- Python `repr(v)` for a JSON value, as used by `str()` on containers.
String escaping inside `repr` is not modelled (no claim depends on it). -/
def pyRepr : JVal → String
  | .null => "None"
  | .bool true => "True"
  | .bool false => "False"
  | .num n => toString n
  | .str s => "\x27" ++ s ++ "\x27"
  | .arr xs => "[" ++ pyReprElems xs ++ "]"
  | .obj fs => "\x7b" ++ pyReprFields fs ++ "\x7d"

def pyReprElems : List JVal → String
  | [] => ""
  | [x] => pyRepr x
  | x :: xs => pyRepr x ++ ", " ++ pyReprElems xs

def pyReprFields : List (String × JVal) → String
  | [] => ""
  | [(k, v)] => "\x27" ++ k ++ "\x27: " ++ pyRepr v
  | (k, v) :: fs => "\x27" ++ k ++ "\x27: " ++ pyRepr v ++ ", " ++ pyReprFields fs

end

/-- The string `csv.writer` puts in a cell: `None` becomes the empty
string, a `str` is written as itself, anything else via `str(value)`. -/
def csvCell : JVal → String
  | .null => ""
  | .str s => s
  | v => pyRepr v

/-- Python `row.get(k, "")` in the CSV loop: absent key defaults to the empty
string (only reachable for dictionaries, which all extracted records are). -/
def rowGetDefault (r : JVal) (k : String) : JVal :=
  match r with
  | .obj fs => match lookupField fs k with
      | some v => v
      | none => .str ""
  | _ => .str ""

/-- The CSV row written for one extracted record. -/
def csvRow (r : JVal) : List String :=
  fieldnames.map fun k => csvCell (rowGetDefault r k)

/-- The CSV output, modelled at row level (quoting/escaping of the flat
text is the csv module's and is inverted by its reader): header row then
one row per record, in order. -/
def writeCsv (extracted : List JVal) : List (List String) :=
  fieldnames :: extracted.map csvRow

/-- Reading the CSV back: each data row paired with the header gives a
record of string-valued fields. -/
def csvParse : List (List String) → Option (List (List (String × String)))
  | header :: rows => some (rows.map fun row => header.zip row)
  | [] => none

/-- A JSON record with every field value coerced to its CSV string form. -/
def recordToStrings : JVal → List (String × String)
  | .obj fs => fs.map fun p => (p.1, csvCell p.2)
  | v => [("", csvCell v)]

/-- The whole run after `json.load`: normalize, extract, and produce the
two outputs; a normalization failure aborts before any file is written. -/
def runPipeline (v : JVal) : Except String (List JVal × List (List String)) :=
  match data_list v with
  | .error e => .error e
  | .ok l => .ok (extract l, writeCsv (extract l))

/-- Spec-side restatement of the normalization, written from the spec's
words ("inspect keys in fixed priority order ...; if any maps to a
sequence, use that sequence; otherwise treat V itself as a single-element
sequence"), to be compared with `data_list`. -/
def normalizeSpec (v : JVal) : Except String (List JVal) :=
  match v with
  | .arr xs => .ok xs
  | .obj fields =>
      .ok ((wrapperKeys.findSome? fun k => (lookupField fields k).bind asList).getD [.obj fields])
  | _ => .error "Unsupported JSON structure in input file"

/-! ### Helper lemmas -/

theorem eqSG_eq_true_iff (v : JVal) : eqSG v = true ↔ v = .str "SG" := by
  cases v <;> simp [eqSG]

theorem getField_eq_getD (fields : List (String × JVal)) (k : String) :
    getField fields k = (lookupField fields k).getD .null := by
  induction fields with
  | nil => rfl
  | cons p rest ih =>
      obtain ⟨k', v⟩ := p
      by_cases hk : k' = k <;> simp [getField, lookupField, hk, ih]

theorem getField_eq_null_of_lookup_none (fields : List (String × JVal)) (k : String)
    (h : lookupField fields k = none) : getField fields k = .null := by
  rw [getField_eq_getD, h]; rfl

theorem recordStep_obj_eq_ok_some (fields : List (String × JVal))
    (hc : getField fields "country_filter" = .str "SG")
    (hb : is_nonnull (getField fields "base_mpd") = true) :
    recordStep (.obj fields) = .ok (some (projectRecord fields)) := by
  have h1 : eqSG (getField fields "country_filter") = true := (eqSG_eq_true_iff _).mpr hc
  simp [recordStep, h1, hb]

theorem recordStep_eq_ok_some_inv {o r0 : JVal} (h : recordStep o = .ok (some r0)) :
    ∃ fields, o = .obj fields ∧ r0 = projectRecord fields := by
  cases o with
  | obj fields =>
      refine ⟨fields, rfl, ?_⟩
      simp only [recordStep] at h
      split_ifs at h with h1 h2 <;> simp_all
  | null => simp [recordStep] at h
  | bool b => simp [recordStep] at h
  | num n => simp [recordStep] at h
  | str s => simp [recordStep] at h
  | arr xs => simp [recordStep] at h

theorem extractOne_eq_none_of_not_SG {r : JVal}
    (h : JVal.get r "country_filter" ≠ .str "SG") : extractOne r = none := by
  cases r with
  | obj fields =>
      have h1 : eqSG (getField fields "country_filter") = false := by
        rw [← Bool.not_eq_true, eqSG_eq_true_iff]
        exact h
      simp [extractOne, recordStep, h1]
  | null => rfl
  | bool b => rfl
  | num n => rfl
  | str s => rfl
  | arr xs => rfl

theorem extractOne_eq_none_of_null_mpd {r : JVal}
    (h : is_nonnull (JVal.get r "base_mpd") = false) : extractOne r = none := by
  cases r with
  | obj fields =>
      have hg : is_nonnull (getField fields "base_mpd") = false := h
      cases hB : eqSG (getField fields "country_filter") with
      | false => simp [extractOne, recordStep, hB]
      | true => simp [extractOne, recordStep, hB, hg]
  | null => rfl
  | bool b => rfl
  | num n => rfl
  | str s => rfl
  | arr xs => rfl

theorem extract_eq_filterMap (items : List JVal) :
    extract items = items.filterMap extractOne := by
  induction items with
  | nil => rfl
  | cons o rest ih =>
      unfold extract
      cases hs : recordStep o with
      | ok r? => cases r? <;> simp [List.filterMap_cons, extractOne, hs, ih]
      | error e => simp [List.filterMap_cons, extractOne, hs, ih]

theorem extract_append (l1 l2 : List JVal) :
    extract (l1 ++ l2) = extract l1 ++ extract l2 := by
  simp [extract_eq_filterMap, List.filterMap_append]

theorem extract_cons_of_none {r : JVal} (h : extractOne r = none) (l : List JVal) :
    extract (r :: l) = extract l := by
  simp [extract_eq_filterMap, List.filterMap_cons, h]

theorem extract_cons_of_some {r r0 : JVal} (h : extractOne r = some r0) (l : List JVal) :
    extract (r :: l) = r0 :: extract l := by
  simp [extract_eq_filterMap, List.filterMap_cons, h]

theorem extractOne_eq_some_inv {o r : JVal} (h : extractOne o = some r) :
    recordStep o = .ok (some r) := by
  unfold extractOne at h
  cases hs : recordStep o <;> rw [hs] at h <;> simp at h
  rw [h]

theorem extract_shape {items : List JVal} {r : JVal} (h : r ∈ extract items) :
    ∃ a b c d, r = .obj [("base_mpd", a), ("merchantName", b),
      ("merchant_slug", c), ("trackingLink", d)] := by
  rw [extract_eq_filterMap] at h
  obtain ⟨o, -, ho⟩ := List.mem_filterMap.mp h
  obtain ⟨fields, -, hr⟩ := recordStep_eq_ok_some_inv (extractOne_eq_some_inv ho)
  exact ⟨_, _, _, _, hr⟩

theorem findListKey_eq_findSome (fields : List (String × JVal)) (ks : List String) :
    findListKey fields ks = ks.findSome? fun k => (lookupField fields k).bind asList := by
  induction ks with
  | nil => rfl
  | cons k ks ih =>
      unfold findListKey
      rw [List.findSome?_cons]
      cases (lookupField fields k).bind asList <;> simp [ih]

theorem extract_eq_nil_of_all_none {l : List JVal}
    (h : ∀ r ∈ l, extractOne r = none) : extract l = [] := by
  rw [extract_eq_filterMap]
  exact List.filterMap_eq_nil_iff.mpr h

theorem csv_row_zip (a b c d : JVal) :
    fieldnames.zip (csvRow (.obj [("base_mpd", a), ("merchantName", b),
      ("merchant_slug", c), ("trackingLink", d)])) =
    recordToStrings (.obj [("base_mpd", a), ("merchantName", b),
      ("merchant_slug", c), ("trackingLink", d)]) := rfl

/-! ### Claims -/

/-- C1: a record whose `country_filter` reads as the exact string `"SG"` and
whose `base_mpd` is non-null is kept; the emitted record has exactly the four
fields `base_mpd`, `merchantName`, `merchant_slug`, `trackingLink`, each value
copied verbatim via `obj.get`, it appears in the output in place, and a field
absent from the source reads as `null` (hence appears as `null` in the
output). -/
theorem c1_sg_nonnull_projection (fields : List (String × JVal))
    (hc : JVal.get (.obj fields) "country_filter" = .str "SG")
    (hb : is_nonnull (JVal.get (.obj fields) "base_mpd") = true) :
    extractOne (.obj fields) = some (.obj
      [("base_mpd", JVal.get (.obj fields) "base_mpd"),
       ("merchantName", JVal.get (.obj fields) "merchantName"),
       ("merchant_slug", JVal.get (.obj fields) "merchant_slug"),
       ("trackingLink", JVal.get (.obj fields) "trackingLink")]) ∧
    (∀ l1 l2, extract (l1 ++ JVal.obj fields :: l2) =
      extract l1 ++ projectRecord fields :: extract l2) ∧
    ∀ k, lookupField fields k = none → JVal.get (.obj fields) k = .null := by
  have hstep := recordStep_obj_eq_ok_some fields hc hb
  have hone : extractOne (.obj fields) = some (projectRecord fields) := by
    simp [extractOne, hstep]
  refine ⟨hone, fun l1 l2 => ?_, fun k hk => ?_⟩
  · rw [extract_append, extract_cons_of_some hone]
  · exact getField_eq_null_of_lookup_none fields k hk

/-- Witness for C1 at a concrete record: `country_filter = "SG"`,
`base_mpd = "M1"`, the other two fields absent, hence `null` in the output. -/
theorem c1_witness :
    extractOne (.obj [("country_filter", .str "SG"), ("base_mpd", .str "M1")]) =
      some (.obj [("base_mpd", .str "M1"), ("merchantName", .null),
        ("merchant_slug", .null), ("trackingLink", .null)]) :=
  (c1_sg_nonnull_projection [("country_filter", .str "SG"), ("base_mpd", .str "M1")]
    rfl rfl).1

/-- C2: a record whose `country_filter` does not read as the exact string
`"SG"` (in particular when the field is absent, so it reads as `null`)
contributes nothing to the output. -/
theorem c2_non_sg_excluded (r : JVal)
    (h : JVal.get r "country_filter" ≠ .str "SG") :
    extractOne r = none ∧
    ∀ l1 l2, extract (l1 ++ r :: l2) = extract (l1 ++ l2) := by
  have hone := extractOne_eq_none_of_not_SG h
  refine ⟨hone, fun l1 l2 => ?_⟩
  rw [extract_append, extract_append, extract_cons_of_none hone]

/-- Witness for C2: a `"US"` record with a perfectly good `base_mpd` is
dropped. -/
theorem c2_witness :
    extract ([] ++ JVal.obj [("country_filter", .str "US"), ("base_mpd", .str "M2")] :: []) =
      extract ([] ++ []) :=
  (c2_non_sg_excluded (.obj [("country_filter", .str "US"), ("base_mpd", .str "M2")])
    (fun hcontra => by
      have : "US" = "SG" := JVal.str.inj hcontra
      exact absurd this (by decide))).2 [] []

/-- C3: the non-null predicate on `base_mpd` holds exactly when the value is
not `null` and not a string that strips-and-lowercases to `""` or `"null"`;
in particular `"Null"`, `"NULL"` and `" "` count as null while `0` and
`false` do not, and a record with a null `base_mpd` contributes nothing to
the output. -/
theorem c3_nonnull_semantics :
    (∀ v, is_nonnull v = true ↔
      (v ≠ .null ∧ ∀ s, v = .str s →
        ¬(pyLower (pyStrip s) = "" ∨ pyLower (pyStrip s) = "null"))) ∧
    is_nonnull (.str "Null") = false ∧
    is_nonnull (.str "NULL") = false ∧
    is_nonnull (.str " ") = false ∧
    is_nonnull (.num 0) = true ∧
    is_nonnull (.bool false) = true ∧
    ∀ r l1 l2, is_nonnull (JVal.get r "base_mpd") = false →
      extract (l1 ++ r :: l2) = extract (l1 ++ l2) := by
  refine ⟨fun v => ?_, rfl, rfl, rfl, rfl, rfl, fun r l1 l2 h => ?_⟩
  · cases v <;> simp [is_nonnull]
  · rw [extract_append, extract_append,
      extract_cons_of_none (extractOne_eq_none_of_null_mpd h)]

/-- Witness for C3: an `"SG"` record whose `base_mpd` is the string
`" NULL "` is dropped. -/
theorem c3_witness :
    extract ([] ++ JVal.obj [("country_filter", .str "SG"),
      ("base_mpd", .str " NULL ")] :: []) = extract ([] ++ []) :=
  c3_nonnull_semantics.2.2.2.2.2.2
    (.obj [("country_filter", .str "SG"), ("base_mpd", .str " NULL ")]) [] [] rfl

/-- C4: normalization takes a sequence as-is; on a mapping it inspects the
keys `data`, `items`, `merchants`, `results` in that priority order and uses
the first one mapping to a sequence, falling back to the singleton sequence
containing the mapping; and a `data`-wrapped array normalizes like the bare
array. -/
theorem c4_normalization (v : JVal) :
    data_list v = normalizeSpec v ∧
    ∀ l, data_list (.obj [("data", .arr l)]) = data_list (.arr l) := by
  refine ⟨?_, fun l => rfl⟩
  cases v with
  | obj fields =>
      simp only [data_list, normalizeSpec, findListKey_eq_findSome]
      cases wrapperKeys.findSome? fun k => (lookupField fields k).bind asList <;> rfl
  | null => rfl
  | bool b => rfl
  | num n => rfl
  | str s => rfl
  | arr xs => rfl

/-- C5: a record on which the loop body raises is skipped on its own:
extraction of the surrounding list is extraction of the rest, so a malformed
entry never aborts the run. -/
theorem c5_per_record_error_skipped (b : JVal) (e : PyError)
    (hb : recordStep b = .error e) (l1 l2 : List JVal) :
    extract (l1 ++ b :: l2) = extract l1 ++ extract l2 := by
  have hone : extractOne b = none := by simp [extractOne, hb]
  rw [extract_append, extract_cons_of_none hone]

/-- Witness for C5: a bare string in the record list is skipped and the
following `"SG"` record is still extracted. -/
theorem c5_witness :
    extract ([] ++ JVal.str "junk" ::
        [JVal.obj [("country_filter", .str "SG"), ("base_mpd", .str "M3")]]) =
      extract [] ++
        extract [JVal.obj [("country_filter", .str "SG"), ("base_mpd", .str "M3")]] :=
  c5_per_record_error_skipped (.str "junk") .attributeError rfl []
    [JVal.obj [("country_filter", .str "SG"), ("base_mpd", .str "M3")]]

/-- C6: extraction is an order-preserving filter-and-project: the output is
exactly the per-record results collected with `filterMap` over the input in
order, and extraction distributes over concatenation. -/
theorem c6_order_preserving (items : List JVal) :
    extract items = items.filterMap extractOne ∧
    ∀ l2, extract (items ++ l2) = extract items ++ extract l2 :=
  ⟨extract_eq_filterMap items, fun l2 => extract_append items l2⟩

/-- C7: the CSV output is the header row with the four field names in fixed
order followed by one row per extracted record in JSON order; parsing it
back (pairing each row with the header) yields exactly the JSON records with
every value coerced to its CSV string form, and a `null` value is written as
the empty string. -/
theorem c7_csv_json_roundtrip (items : List JVal) :
    writeCsv (extract items) = fieldnames :: (extract items).map csvRow ∧
    (writeCsv (extract items)).length = (extract items).length + 1 ∧
    csvParse (writeCsv (extract items)) =
      some ((extract items).map recordToStrings) ∧
    csvCell .null = "" := by
  refine ⟨rfl, by simp [writeCsv], ?_, rfl⟩
  simp only [writeCsv, csvParse, List.map_map]
  congr 1
  apply List.map_congr_left
  intro r hr
  obtain ⟨a, b, c, d, rfl⟩ := extract_shape hr
  exact csv_row_zip a b c d

/-- C8: when the parsed top-level value is neither a sequence nor a mapping,
the run aborts with the unsupported-structure diagnostic (a non-zero process
exit) and produces no outputs. -/
theorem c8_unsupported_structure (v : JVal)
    (ha : ∀ xs, v ≠ .arr xs) (ho : ∀ fs, v ≠ .obj fs) :
    runPipeline v = .error "Unsupported JSON structure in input file" := by
  cases v with
  | arr xs => exact absurd rfl (ha xs)
  | obj fs => exact absurd rfl (ho fs)
  | null => rfl
  | bool b => rfl
  | num n => rfl
  | str s => rfl

/-- Witness for C8 at the top-level value `null`. -/
theorem c8_witness :
    runPipeline .null = .error "Unsupported JSON structure in input file" :=
  c8_unsupported_structure .null (fun _ h => JVal.noConfusion h)
    (fun _ h => JVal.noConfusion h)

/-- C9: extraction is total over arbitrary JSON record lists: run with
explicit exception propagation it always returns `.ok`, every per-record
error having been caught and turned into a skip. -/
theorem c9_extract_never_raises (items : List JVal) :
    extractRun items = .ok (extract items) := by
  induction items with
  | nil => rfl
  | cons o rest ih =>
      unfold extractRun extract
      cases hs : recordStep o with
      | ok r? => cases r? <;> simp only [tryRecord, ih] <;> rfl
      | error e => simp only [tryRecord, ih]; rfl

/-- C10: extraction is annihilating on its own output: projected records
carry no `country_filter` field, so a second pass keeps nothing. -/
theorem c10_extract_extract_nil (items : List JVal) :
    extract (extract items) = [] := by
  apply extract_eq_nil_of_all_none
  intro r hr
  obtain ⟨a, b, c, d, rfl⟩ := extract_shape hr
  apply extractOne_eq_none_of_not_SG
  intro hcontra
  exact JVal.noConfusion (show JVal.null = JVal.str "SG" from hcontra)
